import Mathlib

/-!
Verification development for the tunes4r download service
(src/api/download_service.py).

The Python module is shallowly embedded below.  Python dictionaries with a
fixed set of optional keys are embedded as structures with Option-typed
fields (a key being absent is the field being none); external effects
(yt-dlp, ffmpeg, MusicBrainz, lyrics providers, the file system) are
embedded as oracle parameters describing the observable result of each
call; the global in-memory status store is embedded as an Option Snapshot
per job, every write being a full-record replace exactly as
update_download_status does.  Real time (time.time, sleeps) is not
modelled; the updated_at field is therefore omitted from snapshots.
-/

namespace Tunes4r

/-- A song dictionary as passed around by the service: the keys
title/artist are always present, every other key is optional.
Mirrors the dicts built in download_song_endpoint, get_album_tracks and
enrich_metadata. -/
structure SongDict where
  title : String
  artist : String
  album : Option String := none
  query : Option String := none
  cover_url : Option String := none
  genre : Option String := none
  track_number : Option String := none
  duration_ms : Option Nat := none
  lyrics : Option String := none
deriving DecidableEq

/-- One entry of the downloaded_songs list built by process_song_download. -/
structure Outcome where
  title : String
  artist : String
  album : Option String := none
  filepath : Option String := none
  error : Option String := none
  status : String
deriving DecidableEq

/-- One record of the global download_status_db store.  Every field other
than status corresponds to an optional keyword argument of
update_download_status; absent keys are none because the function rebuilds
the whole record from scratch on every call (lines 66-72). -/
structure Snapshot where
  status : String
  total_songs : Option Nat := none
  completed_songs : Option Nat := none
  failed_songs : Option Nat := none
  progress : Option Nat := none
  songs : Option (List Outcome) := none
  playlist_path : Option String := none
deriving DecidableEq

/-- update_download_status (lines 66-72): the stored record is replaced
wholesale by a fresh dictionary, so a write carries exactly the fields
passed at that call site and drops everything else. -/
def update_download_status (_old : Option Snapshot) (snap : Snapshot) : Option Snapshot :=
  some snap

/-- Apply a list of writes to the store in order. -/
def applyWrites (db : Option Snapshot) (ws : List Snapshot) : Option Snapshot :=
  ws.foldl update_download_status db

/-- cancel_download_status (lines 74-81): only a record whose status is
starting or downloading is replaced by a bare cancelled record; the
boolean is the return value of the Python function. -/
def cancel_download_status (rec : Option Snapshot) : Bool × Option Snapshot :=
  match rec with
  | some s =>
    if s.status = "starting" ∨ s.status = "downloading" then
      (true, update_download_status (some s) { status := "cancelled" })
    else (false, some s)
  | none => (false, none)

/-! ### Acquisition Ladder (download_song_async, lines 87-204) -/

/-- The ordered list of search queries built at lines 95-111.  Python
tests song.get with truthiness, so an absent key and an empty string both
fall to the five-pattern default. -/
def search_queries (song : SongDict) : List String :=
  match song.query with
  | some q =>
    if q = "" then
      [song.artist.trim ++ " " ++ song.title.trim ++ " official",
       song.artist.trim ++ " " ++ song.title.trim,
       song.title.trim ++ " " ++ song.artist.trim,
       song.artist.trim ++ " " ++ song.title.trim ++ " audio",
       song.artist.trim ++ " " ++ song.title.trim ++ " official audio lyrics"]
    else [q]
  | none =>
    [song.artist.trim ++ " " ++ song.title.trim ++ " official",
     song.artist.trim ++ " " ++ song.title.trim,
     song.title.trim ++ " " ++ song.artist.trim,
     song.artist.trim ++ " " ++ song.title.trim ++ " audio",
     song.artist.trim ++ " " ++ song.title.trim ++ " official audio lyrics"]

/-- The canonical output path f-string of line 90 combined with
os.path.join of line 91. -/
def outputPath (outDir : String) (song : SongDict) : String :=
  outDir ++ "/" ++ song.artist ++ " - " ++ song.title ++ ".mp3"

/-- Observable result of one yt-dlp invocation: the subprocess result
together with the state of the output file afterwards, or a timeout, or
an unexpected exception. -/
inductive QueryOutcome where
  | proc (returncode : Int) (fileExistsAfter : Bool) (fileSize : Nat)
      (stderrText : String) (stdoutText : String)
  | timeout
  | exc (msg : String)
deriving DecidableEq

/-- A yt-dlp run counts as a download success exactly when the conditions
of lines 152-155 hold. -/
def isQuerySuccess : QueryOutcome → Bool
  | .proc rc ex sz _ _ => (rc == 0) && ex && (sz != 0)
  | .timeout => false
  | .exc _ => false

/-- The error string built at lines 168-175. -/
def detailed_error (rc : Int) (stderrText stdoutText : String) : String :=
  let errMsg := if stderrText = "" then "Unknown error" else stderrText.trim
  let sout := if stdoutText = "" then "No output" else stdoutText.trim
  let base := "yt-dlp failed (exit code: " ++ toString rc ++ "): " ++ errMsg
  if sout = "" then base else base ++ " | stdout: " ++ sout.take 200 ++ "..."

/-- Result of one iteration of the query loop: either the function
returns (line 160), or it moves on to the next query carrying the new
last_error; the flag records whether the zero-byte-file removal of
line 164 executed. -/
inductive StepRes where
  | stop (res : Bool × String)
  | cont (newLastError : String) (zeroByteRemoved : Bool)
deriving DecidableEq

/-- One iteration of the for-loop of lines 116-201, given the outcome of
the yt-dlp call and the result fixOk of the later fix_metadata call.
On download success the function returns
(metadata_success, path-or-message) as at line 160; a zero-byte file is
removed and the loop continues with last_error unchanged (lines 161-166);
otherwise last_error is rebuilt as at lines 168-197. -/
def queryStep (o : QueryOutcome) (fixOk : Bool) (path lastError : String) : StepRes :=
  match o with
  | .proc rc ex sz stderrText stdoutText =>
    if rc = 0 ∧ ex then
      if 0 < sz then
        .stop (fixOk, if fixOk then path else "Metadata fix failed")
      else
        .cont lastError true
    else
      .cont (detailed_error rc stderrText stdoutText) false
  | .timeout => .cont "Download timeout (10 minutes)" false
  | .exc m => .cont m false

/-- The composite failure message of line 204. -/
def allFailedMsg (total : Nat) (lastError : String) : String :=
  "No suitable video found after trying " ++ toString total ++
    " different search queries. Last error: " ++ lastError

/-- The query loop of lines 113-204, returning the value of
download_song_async together with the number of queries attempted.  The
oracle maps the index of a query to the outcome of its yt-dlp call. -/
def ladderGo (total : Nat) (oracle : Nat → QueryOutcome) (fixOk : Bool) (path : String) :
    Nat → List String → String → (Bool × String) × Nat
  | i, [], lastError => ((false, allFailedMsg total lastError), i)
  | i, _ :: rest, lastError =>
    match queryStep (oracle i) fixOk path lastError with
    | .stop res => (res, i + 1)
    | .cont newErr _ => ladderGo total oracle fixOk path (i + 1) rest newErr

/-- download_song_async (lines 87-204): builds the query list, then runs
the ladder starting from the initial last_error of line 114. -/
def download_song_async (song : SongDict) (outDir : String)
    (oracle : Nat → QueryOutcome) (fixOk : Bool) : (Bool × String) × Nat :=
  let qs := search_queries song
  ladderGo qs.length oracle fixOk (outputPath outDir song) 0 qs "No search queries succeeded"

/-! ### Tracklist Resolver (get_album_tracks, lines 486-582) -/

/-- One track extracted from the MusicBrainz release detail response
(lines 522-534): the recording title plus the optional track number. -/
structure MBTrack where
  title : String
  number : Option String := none
deriving DecidableEq

/-- Observable result of the MusicBrainz lookups inside get_album_tracks:
either the detail request produced a (possibly empty) track list, or some
step yielded no usable data (non-200 response, no releases, detail
failure), or an exception escaped to the outer handler of line 574. -/
inductive MBAlbumResult where
  | found (tracks : List MBTrack)
  | noMatch
  | err
deriving DecidableEq

/-- A SongRecord built from one real MusicBrainz track (lines 526-534). -/
def mbTrackToSong (artistClean albumClean : String) (t : MBTrack) : SongDict :=
  { title := t.title, artist := artistClean, album := some albumClean,
    query := some (artistClean ++ " \"" ++ t.title ++ "\" song official audio"),
    track_number := t.number }

/-- A synthetic placeholder SongRecord of the fallback loop
(lines 558-565). -/
def synthSong (artistClean albumClean : String) (i : Nat) (pfx sfx : String) : SongDict :=
  { title := pfx.capitalize ++ " " ++ toString i ++ sfx,
    artist := artistClean, album := some albumClean,
    query := some (artistClean ++ " \"" ++ albumClean ++ "\" song " ++ toString i ++
      " -individual track-") }

/-- The innermost for-suffix loop of lines 557-567: append one synthetic
track per suffix, breaking as soon as the list has reached 12 entries
(the length test comes after the append, as in the source). -/
def suffixLoop (artistClean albumClean : String) (i : Nat) (pfx : String) :
    List String → List SongDict → List SongDict
  | [], acc => acc
  | sfx :: rest, acc =>
    let acc2 := acc ++ [synthSong artistClean albumClean i pfx sfx]
    if 12 ≤ acc2.length then acc2 else suffixLoop artistClean albumClean i pfx rest acc2

/-- The middle for loop over the two title stems, lines 556-567; it has
no break of its own. -/
def pfxLoop (artistClean albumClean : String) (i : Nat) :
    List String → List SongDict → List SongDict
  | [], acc => acc
  | pfx :: rest, acc =>
    pfxLoop artistClean albumClean i rest
      (suffixLoop artistClean albumClean i pfx ["", " (part 1)", " (part 2)"] acc)

/-- The outer for-i loop of lines 554-569, with its break at line 569. -/
def trackNumLoop (artistClean albumClean : String) :
    List Nat → List SongDict → List SongDict
  | [], acc => acc
  | i :: rest, acc =>
    let acc2 := pfxLoop artistClean albumClean i ["track", "song"] acc
    if 12 ≤ acc2.length then acc2 else trackNumLoop artistClean albumClean rest acc2

/-- The synthetic fallback tracklist of lines 547-572, including the
final tracks[:12] truncation. -/
def fallbackTracks (artistClean albumClean : String) : List SongDict :=
  (trackNumLoop artistClean albumClean [1, 2, 3, 4, 5, 6, 7, 8, 9, 10, 11, 12] []).take 12

/-- get_album_tracks (lines 486-582): a non-empty real tracklist is
returned as-is (line 536-537), an empty or missing one falls through to
the synthetic fallback, and an exception produces the single whole-album
record of lines 576-582 built from the uncleaned arguments. -/
def get_album_tracks (artist album : String) (r : MBAlbumResult) : List SongDict :=
  let artistClean := artist.trim
  let albumClean := album.trim
  match r with
  | .found ts =>
    if ts.isEmpty then fallbackTracks artistClean albumClean
    else ts.map (mbTrackToSong artistClean albumClean)
  | .noMatch => fallbackTracks artistClean albumClean
  | .err =>
    [{ title := album, artist := artist, album := some album,
       query := some (artist ++ " " ++ album ++ " full album official") }]

/-! ### Metadata Enrichment Resolver (enrich_metadata, lines 206-290) -/

/-- The fields extracted from a successful MusicBrainz recording lookup
(lines 228-274), after the truthiness tests of the source: an oracle
field is some only when the corresponding Python condition held.
releaseCover is the combined result of the release id being present and
get_album_cover_art returning a URL (lines 249-253). -/
structure MBRecordingData where
  recTitle : Option String := none
  recArtist : Option String := none
  recAlbum : Option String := none
  releaseCover : Option String := none
  genres : List String := []
  trackNumber : Option String := none
  durationMs : Option Nat := none
deriving DecidableEq

/-- Observable result of the MusicBrainz recording lookup inside
enrich_metadata: data, no data (non-200 or empty recordings list), or an
exception reaching the handler of line 286. -/
inductive MBRecResult where
  | ok (d : MBRecordingData)
  | noData
  | err
deriving DecidableEq

/-- The field-by-field update of lines 231-274 applied to a copy of the
input song. -/
def applyRecordingData (song : SongDict) (d : MBRecordingData) : SongDict :=
  let s1 := match d.recTitle with
    | some t => { song with title := t }
    | none => song
  let s2 := match d.recArtist with
    | some a => { s1 with artist := a }
    | none => s1
  let s3 := match d.recAlbum with
    | some al => { s2 with album := some al }
    | none => s2
  let s4 := match d.releaseCover with
    | some c => { s3 with cover_url := some c }
    | none => s3
  let s5 := if d.genres.isEmpty then s4
    else { s4 with genre := some (String.intercalate ", " (d.genres.take 3)) }
  let s6 := match d.trackNumber with
    | some n => { s5 with track_number := some n }
    | none => s5
  match d.durationMs with
  | some ms => { s6 with duration_ms := some ms }
  | none => s6

/-- enrich_metadata (lines 206-290): on an exception the original song is
returned (line 288); otherwise the MusicBrainz fields (if any) are merged
into a copy of the song and lyrics are attached when get_song_lyrics
returned text (lines 278-284).  The lyr oracle is the return value of
get_song_lyrics, which swallows its own errors and returns None. -/
def enrich_metadata (song : SongDict) (mb : MBRecResult) (lyr : Option String) : SongDict :=
  match mb with
  | .err => song
  | .noData =>
    match lyr with
    | some l => { song with lyrics := some l }
    | none => song
  | .ok d =>
    let enhanced := applyRecordingData song d
    match lyr with
    | some l => { enhanced with lyrics := some l }
    | none => enhanced

/-! ### Job Lifecycle Manager (process_song_download, lines 967-1108) -/

/-- Observable result of one iteration of the song loop: what the awaited
download_song_async call returned (lines 1017), or an exception escaping
into the handler of lines 1080-1088. -/
inductive SongResult where
  | ok (filepath : String)
  | failure (msg : String)
  | exc (msg : String)
deriving DecidableEq

def SongResult.isOk : SongResult → Bool
  | .ok _ => true
  | _ => false

def SongResult.isExc : SongResult → Bool
  | .exc _ => true
  | _ => false

/-- The downloaded_songs entry appended for one song
(lines 1038-1044, 1048-1054 and 1082-1088).  Note the exception path
stamps the entry with status error, not failed. -/
def mkOutcome (s : SongDict) : SongResult → Outcome
  | .ok p =>
    { title := s.title, artist := s.artist, album := s.album,
      filepath := some p, status := "completed" }
  | .failure m =>
    { title := s.title, artist := s.artist, album := s.album,
      error := some m, status := "failed" }
  | .exc m =>
    { title := s.title, artist := s.artist, album := s.album,
      error := some m, status := "error" }

/-- Number of successful downloads among a result list (the completed
counter of the loop). -/
def countOk : List SongResult → Nat
  | [] => 0
  | r :: rs => (if r.isOk then 1 else 0) + countOk rs

/-- Number of unsuccessful results (the failed counter; both the failure
and the exception branch increment it). -/
def countBad : List SongResult → Nat
  | [] => 0
  | r :: rs => (if r.isOk then 0 else 1) + countBad rs

/-- Mutable state of the loop: the completed and failed counters and the
downloaded_songs list. -/
structure LoopState where
  completed : Nat
  failed : Nat
  outcomes : List Outcome
deriving DecidableEq

/-- The two cosmetic single-song updates of lines 992-1015 (progress 10
then 25), emitted only when the job has exactly one song. -/
def singleSongPreWrites (n : Nat) : List Snapshot :=
  if n = 1 then
    [{ status := "downloading", total_songs := some 1, completed_songs := some 0,
       failed_songs := some 0, progress := some 10, songs := some [] },
     { status := "downloading", total_songs := some 1, completed_songs := some 0,
       failed_songs := some 0, progress := some 25, songs := some [] }]
  else []

/-- The cosmetic single-song update of lines 1025-1035 (progress 75),
emitted after a successful download when the job has exactly one song. -/
def singleSongMidWrites (n : Nat) : List Snapshot :=
  if n = 1 then
    [{ status := "downloading", total_songs := some 1, completed_songs := some 0,
       failed_songs := some 0, progress := some 75, songs := some [] }]
  else []

/-- The end-of-iteration status update of lines 1056-1074, after song
index i (0-based) of n, with the counters and outcome list as of that
point.  Python computes int(((i+1)/len(songs))*100), which for every job
size the service can create (n at most 20) agrees with exact floor
division, embedded here as Nat division. -/
def loopEndSnap (n i completed failed : Nat) (outs : List Outcome) : Snapshot :=
  { status :=
      if completed + failed < n then "downloading"
      else if 0 < failed then "error"
      else "completed",
    total_songs := some n, completed_songs := some completed,
    failed_songs := some failed, progress := some ((i + 1) * 100 / n),
    songs := some outs }

/-- One iteration of the for-loop of lines 989-1088: the writes it emits
(in order) and the updated loop state.  On an exception the status update
at the end of the iteration is skipped, because it sits inside the try
block. -/
def iterWrites (n i : Nat) (st : LoopState) (s : SongDict) (r : SongResult) :
    List Snapshot × LoopState :=
  let pre := singleSongPreWrites n
  match r with
  | .ok p =>
    let completed := st.completed + 1
    let outs := st.outcomes ++ [mkOutcome s (.ok p)]
    (pre ++ singleSongMidWrites n ++ [loopEndSnap n i completed st.failed outs],
     ⟨completed, st.failed, outs⟩)
  | .failure m =>
    let failed := st.failed + 1
    let outs := st.outcomes ++ [mkOutcome s (.failure m)]
    (pre ++ [loopEndSnap n i st.completed failed outs],
     ⟨st.completed, failed, outs⟩)
  | .exc m =>
    (pre, ⟨st.completed, st.failed + 1, st.outcomes ++ [mkOutcome s (.exc m)]⟩)

/-- The whole song loop: writes of every iteration in order, plus the
final loop state.  i is the running index. -/
def loopTrace (n : Nat) : Nat → LoopState → List (SongDict × SongResult) →
    List Snapshot × LoopState
  | _, st, [] => ([], st)
  | i, st, (s, r) :: rest =>
    let step := iterWrites n i st s r
    let next := loopTrace n (i + 1) step.2 rest
    (step.1 ++ next.1, next.2)

/-- The initial downloading update of lines 978-987. -/
def initialWrite (n : Nat) : Snapshot :=
  { status := "downloading", total_songs := some n, completed_songs := some 0,
    failed_songs := some 0, progress := some 0, songs := some [] }

/-- create_m3u_playlist (lines 584-599) as far as its return value is
observable: os.path.join(output_dir, filename). -/
def create_m3u_playlist (outDir fname : String) : String :=
  outDir ++ "/" ++ fname

/-- The post-loop playlist block of lines 1095-1108: for a multi-song job
with at least one success it filters the successful outcomes and, when
there are any, writes a record carrying only status completed, the
playlist path and the song list (the counters and progress are dropped by
the full-record replace). -/
def playlistWrites (n : Nat) (st : LoopState) (dlId outDir : String) : List Snapshot :=
  if 1 < n ∧ 0 < st.completed then
    let successful := st.outcomes.filter (fun o => o.status == "completed")
    if successful.isEmpty then []
    else
      [{ status := "completed",
         playlist_path := some (create_m3u_playlist outDir (dlId ++ ".m3u")),
         songs := some st.outcomes }]
  else []

/-- process_song_download (lines 967-1108): the ordered list of status
writes the background task performs for a job, given the per-song
results.  The loop body never reads the status store, so the trace does
not depend on it (in particular it does not depend on a concurrent
cancellation). -/
def process_song_download (dlId outDir : String) (songs : List SongDict)
    (results : List SongResult) : List Snapshot :=
  let n := songs.length
  let run := loopTrace n 0 ⟨0, 0, []⟩ (songs.zip results)
  initialWrite n :: run.1 ++ playlistWrites n run.2 dlId outDir

/-- The final downloaded_songs list accumulated by the loop. -/
def runOutcomes (songs : List SongDict) (results : List SongResult) : List Outcome :=
  (loopTrace songs.length 0 ⟨0, 0, []⟩ (songs.zip results)).2.outcomes

/-- The write of the single-song endpoint before scheduling the task
(line 867). -/
def singleEndpointPre : List Snapshot :=
  [{ status := "starting", total_songs := some 1, completed_songs := some 0 }]

/-- The writes of the album endpoint before scheduling the task
(lines 892 and 903-909). -/
def albumEndpointPre (n : Nat) : List Snapshot :=
  [{ status := "searching_tracks" },
   { status := "starting", total_songs := some n, completed_songs := some 0,
     songs := some [] }]

/-- All status writes observable for one job: the endpoint writes
followed by the background-task writes. -/
def jobTrace (isAlbum : Bool) (dlId outDir : String) (songs : List SongDict)
    (results : List SongResult) : List Snapshot :=
  (if isAlbum then albumEndpointPre songs.length else singleEndpointPre) ++
    process_song_download dlId outDir songs results

/-- The song dictionary built by download_song_endpoint (lines 869-874):
the query override is always present. -/
def songRequestToDict (title artist : String) (album : Option String) : SongDict :=
  { title := title.trim, artist := artist.trim,
    album := some (match album with
      | some a => if a = "" then "Unknown Album" else a.trim
      | none => "Unknown Album"),
    query := some (artist.trim ++ " " ++ title.trim ++ " official audio lyrics") }

/-- Counter consistency of one observable snapshot, relative to a job of
n songs: whenever the completed, failed and total fields are all present
they satisfy completed + failed ≤ total, and a snapshot carrying a
terminal completed or error status together with a total field also
carries both counters, summing exactly to n. -/
def SnapOk (n : Nat) (snap : Snapshot) : Prop :=
  (∀ c f t : Nat, snap.completed_songs = some c → snap.failed_songs = some f →
    snap.total_songs = some t → c + f ≤ t) ∧
  ((snap.status = "completed" ∨ snap.status = "error") → snap.total_songs.isSome →
    ∃ c f : Nat, snap.completed_songs = some c ∧ snap.failed_songs = some f ∧ c + f = n)

/-- Sample song record used for concrete evaluations. -/
def songA : SongDict :=
  { title := "bad guy", artist := "Billie Eilish", album := some "When We All Fall Asleep" }

/-- Second sample song record used for concrete evaluations. -/
def songB : SongDict :=
  { title := "bury a friend", artist := "Billie Eilish", album := some "When We All Fall Asleep" }

/-! ## Lemmas about the Acquisition Ladder -/

theorem queryStep_of_success {o : QueryOutcome} (fixOk : Bool) (path e : String)
    (h : isQuerySuccess o = true) :
    queryStep o fixOk path e = .stop (fixOk, if fixOk then path else "Metadata fix failed") := by
  cases o with
  | proc rc ex sz se so =>
    simp only [isQuerySuccess, Bool.and_eq_true, beq_iff_eq, bne_iff_ne] at h
    obtain ⟨⟨h1, h2⟩, h3⟩ := h
    subst h1; subst h2
    simp [queryStep, Nat.pos_of_ne_zero h3]
  | timeout => simp [isQuerySuccess] at h
  | exc m => simp [isQuerySuccess] at h

theorem queryStep_of_not_success {o : QueryOutcome} (fixOk : Bool) (path e : String)
    (h : isQuerySuccess o = false) :
    ∃ e2 b, queryStep o fixOk path e = .cont e2 b := by
  cases o with
  | proc rc ex sz se so =>
    simp only [isQuerySuccess, Bool.and_eq_true, beq_iff_eq, bne_iff_ne, not_and,
      Bool.and_eq_false_iff] at h
    by_cases hrc : rc = 0 ∧ ex = true
    · obtain ⟨h1, h2⟩ := hrc
      subst h1; subst h2
      have hsz : sz = 0 := by
        rcases h with h | h
        · rcases h with h | h
          · simp at h
          · simp at h
        · simpa using h
      subst hsz
      exact ⟨e, true, by simp [queryStep]⟩
    · refine ⟨detailed_error rc se so, false, ?_⟩
      simp [queryStep, hrc]
  | timeout => exact ⟨_, _, rfl⟩
  | exc m => exact ⟨_, _, rfl⟩

theorem ladderGo_first_success (total : Nat) (oracle : Nat → QueryOutcome) (fixOk : Bool)
    (path : String) :
    ∀ (qs : List String) (k i : Nat) (e : String), k < qs.length →
    (∀ j, j < k → isQuerySuccess (oracle (i + j)) = false) →
    isQuerySuccess (oracle (i + k)) = true →
    ladderGo total oracle fixOk path i qs e =
      ((fixOk, if fixOk then path else "Metadata fix failed"), i + k + 1) := by
  intro qs
  induction qs with
  | nil => intro k i e hk _ _; simp at hk
  | cons q rest ih =>
    intro k i e hk hbefore hsucc
    cases k with
    | zero =>
      have h0 : isQuerySuccess (oracle i) = true := by simpa using hsucc
      simp [ladderGo, queryStep_of_success fixOk path e h0]
    | succ k2 =>
      have h0 : isQuerySuccess (oracle i) = false := by
        have := hbefore 0 (Nat.succ_pos k2)
        simpa using this
      obtain ⟨e2, b, hstep⟩ := queryStep_of_not_success fixOk path e h0
      have hrec := ih k2 (i + 1) e2 (by simpa using hk)
        (fun j hj => by
          have := hbefore (j + 1) (by omega)
          simpa [Nat.add_assoc, Nat.add_comm 1 j] using this)
        (by
          have : i + 1 + k2 = i + (k2 + 1) := by omega
          rw [this]; exact hsucc)
      simp only [ladderGo, hstep]
      rw [hrec]
      congr 1
      omega

theorem ladderGo_singleton_count (total : Nat) (oracle : Nat → QueryOutcome) (fixOk : Bool)
    (path : String) (i : Nat) (q e : String) :
    (ladderGo total oracle fixOk path i [q] e).2 = i + 1 := by
  cases hstep : queryStep (oracle i) fixOk path e with
  | stop res => simp [ladderGo, hstep]
  | cont e2 b => simp [ladderGo, hstep]

theorem search_queries_override (song : SongDict) (q : String) (hq : song.query = some q)
    (hne : q ≠ "") : search_queries song = [q] := by
  simp [search_queries, hq, hne]

theorem search_queries_default (song : SongDict) (hq : song.query = none) :
    search_queries song =
      [song.artist.trim ++ " " ++ song.title.trim ++ " official",
       song.artist.trim ++ " " ++ song.title.trim,
       song.title.trim ++ " " ++ song.artist.trim,
       song.artist.trim ++ " " ++ song.title.trim ++ " audio",
       song.artist.trim ++ " " ++ song.title.trim ++ " official audio lyrics"] := by
  simp [search_queries, hq]

theorem download_first_success (song : SongDict) (outDir : String)
    (oracle : Nat → QueryOutcome) (fixOk : Bool) (k : Nat)
    (hk : k < (search_queries song).length)
    (hbefore : ∀ j, j < k → isQuerySuccess (oracle j) = false)
    (hsucc : isQuerySuccess (oracle k) = true) :
    download_song_async song outDir oracle fixOk =
      ((fixOk, if fixOk then outputPath outDir song else "Metadata fix failed"), k + 1) := by
  unfold download_song_async
  have := ladderGo_first_success (search_queries song).length oracle fixOk
    (outputPath outDir song) (search_queries song) k 0 "No search queries succeeded" hk
    (fun j hj => by simpa using hbefore j hj) (by simpa using hsucc)
  simpa using this

theorem download_override_count (song : SongDict) (q outDir : String)
    (oracle : Nat → QueryOutcome) (fixOk : Bool) (hq : song.query = some q) (hne : q ≠ "") :
    (download_song_async song outDir oracle fixOk).2 = 1 := by
  unfold download_song_async
  rw [search_queries_override song q hq hne]
  exact ladderGo_singleton_count 1 oracle fixOk (outputPath outDir song) 0 q
    "No search queries succeeded"

/-- CLAIM C5: the Acquisition Ladder tries the queries in the documented
fixed order, stopping at the first query that succeeds; an explicit
non-empty query override is the sole query and exactly one query is
attempted; without an override the five documented queries are generated
in order. -/
theorem C5_search_ladder :
    (∀ (song : SongDict) (q : String), song.query = some q → q ≠ "" →
      search_queries song = [q]) ∧
    (∀ song : SongDict, song.query = none →
      search_queries song =
        [song.artist.trim ++ " " ++ song.title.trim ++ " official",
         song.artist.trim ++ " " ++ song.title.trim,
         song.title.trim ++ " " ++ song.artist.trim,
         song.artist.trim ++ " " ++ song.title.trim ++ " audio",
         song.artist.trim ++ " " ++ song.title.trim ++ " official audio lyrics"]) ∧
    (∀ (song : SongDict) (outDir : String) (oracle : Nat → QueryOutcome) (fixOk : Bool)
        (k : Nat), k < (search_queries song).length →
      (∀ j, j < k → isQuerySuccess (oracle j) = false) →
      isQuerySuccess (oracle k) = true →
      download_song_async song outDir oracle fixOk =
        ((fixOk, if fixOk then outputPath outDir song else "Metadata fix failed"), k + 1)) ∧
    (∀ (song : SongDict) (q outDir : String) (oracle : Nat → QueryOutcome) (fixOk : Bool),
      song.query = some q → q ≠ "" →
      (download_song_async song outDir oracle fixOk).2 = 1) :=
  ⟨search_queries_override, search_queries_default,
   fun song outDir oracle fixOk k hk hb hs =>
     download_first_success song outDir oracle fixOk k hk hb hs,
   fun song q outDir oracle fixOk hq hne =>
     download_override_count song q outDir oracle fixOk hq hne⟩

/-- Witness for C5 at concrete inputs: a song with no override generates
the five queries, and with success first appearing at query index 2 the
ladder attempts exactly three queries. -/
theorem C5_search_ladder_witness :
    (search_queries songA).length = 5 ∧
    (download_song_async songA "out"
      (fun j => if j = 2 then .proc 0 true 5 "" "" else .proc 1 false 0 "err" "") true).2 = 3 := by
  have h2 := C5_search_ladder.2.1 songA rfl
  have h3 := C5_search_ladder.2.2.1 songA "out"
    (fun j => if j = 2 then .proc 0 true 5 "" "" else .proc 1 false 0 "err" "") true 2
    (by rw [h2]; decide)
    (by intro j hj; interval_cases j <;> decide)
    (by decide)
  refine ⟨by rw [h2]; rfl, by rw [h3]⟩

/-- CLAIM C9: an acquisition attempt stops the ladder (counts as a
download success) exactly when the process exits 0, the output file
exists and its size is positive; a zero-byte file is removed and treated
as a failure (the loop continues, last_error untouched); and when tag
finalization fails after a successful download the overall outcome is a
failure with the message Metadata fix failed. -/
theorem C9_success_criteria :
    (∀ (o : QueryOutcome) (fixOk : Bool) (path e : String),
      (∃ res, queryStep o fixOk path e = .stop res) ↔ isQuerySuccess o = true) ∧
    (∀ (se so : String) (fixOk : Bool) (path e : String),
      queryStep (.proc 0 true 0 se so) fixOk path e = .cont e true) ∧
    (∀ (song : SongDict) (outDir : String) (oracle : Nat → QueryOutcome) (k : Nat),
      k < (search_queries song).length →
      (∀ j, j < k → isQuerySuccess (oracle j) = false) →
      isQuerySuccess (oracle k) = true →
      download_song_async song outDir oracle false =
        ((false, "Metadata fix failed"), k + 1)) := by
  refine ⟨?_, ?_, ?_⟩
  · intro o fixOk path e
    constructor
    · rintro ⟨res, hres⟩
      by_contra hns
      have hns2 : isQuerySuccess o = false := by
        cases h : isQuerySuccess o
        · rfl
        · exact absurd h hns
      obtain ⟨e2, b, hcont⟩ := queryStep_of_not_success fixOk path e hns2
      rw [hres] at hcont
      exact StepRes.noConfusion hcont
    · intro h
      exact ⟨_, queryStep_of_success fixOk path e h⟩
  · intro se so fixOk path e
    simp [queryStep]
  · intro song outDir oracle k hk hbefore hsucc
    have := download_first_success song outDir oracle false k hk hbefore hsucc
    simpa using this

/-- Witness for C9 at concrete inputs: exit 0 with a 5-byte file stops
the ladder, a zero-byte file continues with the removal flag set and the
error text untouched, and a metadata-fix failure after a first-query
success yields the failure pair with message Metadata fix failed after
one attempt. -/
theorem C9_success_criteria_witness :
    (∃ res, queryStep (.proc 0 true 5 "" "") true "p" "e" = .stop res) ∧
    queryStep (.proc 0 true 0 "" "") true "p" "e" = .cont "e" true ∧
    download_song_async songA "out" (fun _ => .proc 0 true 5 "" "") false =
      ((false, "Metadata fix failed"), 1) := by
  refine ⟨?_, ?_, ?_⟩
  · exact (C9_success_criteria.1 (.proc 0 true 5 "" "") true "p" "e").mpr (by decide)
  · exact C9_success_criteria.2.1 "" "" true "p" "e"
  · exact C9_success_criteria.2.2 songA "out" (fun _ => .proc 0 true 5 "" "") 0
      (by rw [search_queries_default songA rfl]; decide)
      (by intro j hj; omega)
      (by decide)

/-- CLAIM C10: download_song_endpoint always builds its song dictionary
with a query override of the documented form, so the single-song path
always runs exactly one search query and never the five-pattern
ladder. -/
theorem C10_single_song_override (title artist : String) (album : Option String)
    (outDir : String) (oracle : Nat → QueryOutcome) (fixOk : Bool) :
    (songRequestToDict title artist album).query =
      some (artist.trim ++ " " ++ title.trim ++ " official audio lyrics") ∧
    search_queries (songRequestToDict title artist album) =
      [artist.trim ++ " " ++ title.trim ++ " official audio lyrics"] ∧
    (download_song_async (songRequestToDict title artist album) outDir oracle fixOk).2 = 1 := by
  have hne : artist.trim ++ " " ++ title.trim ++ " official audio lyrics" ≠ "" := by
    intro h
    have hlen := congrArg String.length h
    rw [String.length_append] at hlen
    have h22 : (" official audio lyrics" : String).length = 22 := rfl
    rw [h22] at hlen
    simp at hlen
  have hq : (songRequestToDict title artist album).query =
      some (artist.trim ++ " " ++ title.trim ++ " official audio lyrics") := rfl
  exact ⟨hq, search_queries_override _ _ hq hne,
    download_override_count _ _ outDir oracle fixOk hq hne⟩

/-! ## Lemmas about the Tracklist Resolver -/

theorem fallbackTracks_length (artistClean albumClean : String) :
    (fallbackTracks artistClean albumClean).length = 12 := by
  simp [fallbackTracks, trackNumLoop, pfxLoop, suffixLoop]

/-- CLAIM C6: with no directory match the resolver returns at most 12
synthetic records and never zero; on an unexpected error it returns
exactly one whole-album record; and for every provider outcome it returns
at least one record. -/
theorem C6_tracklist_fallback (artist album : String) :
    (get_album_tracks artist album .noMatch).length ≤ 12 ∧
    get_album_tracks artist album .noMatch ≠ [] ∧
    (get_album_tracks artist album .err).length = 1 ∧
    ∀ r : MBAlbumResult, get_album_tracks artist album r ≠ [] := by
  have hfb : ∀ a b : String, fallbackTracks a b ≠ [] := by
    intro a b h
    have := fallbackTracks_length a b
    rw [h] at this
    simp at this
  refine ⟨?_, ?_, rfl, ?_⟩
  · simp [get_album_tracks, fallbackTracks_length]
  · simpa [get_album_tracks] using hfb artist.trim album.trim
  · intro r
    cases r with
    | found ts =>
      by_cases h : ts.isEmpty
      · simpa [get_album_tracks, h] using hfb artist.trim album.trim
      · simp only [get_album_tracks, h, if_neg]
        simp only [Bool.false_eq_true, if_false]
        intro hmap
        rw [List.map_eq_nil_iff] at hmap
        rw [hmap] at h
        simp at h
    | noMatch => simpa [get_album_tracks] using hfb artist.trim album.trim
    | err => simp [get_album_tracks]

/-! ## Lemmas about the Metadata Enrichment Resolver -/

/-- CLAIM C7: enrichment never removes a field: the query field is passed
through untouched, every optional field that is present in the input is
still present in the output, a provider exception returns the original
record unchanged, and with no provider data at all the original record is
returned unchanged. -/
theorem C7_enrich_never_narrows (song : SongDict) (mb : MBRecResult) (lyr : Option String) :
    (enrich_metadata song mb lyr).query = song.query ∧
    (song.album.isSome → (enrich_metadata song mb lyr).album.isSome) ∧
    (song.cover_url.isSome → (enrich_metadata song mb lyr).cover_url.isSome) ∧
    (song.genre.isSome → (enrich_metadata song mb lyr).genre.isSome) ∧
    (song.track_number.isSome → (enrich_metadata song mb lyr).track_number.isSome) ∧
    (song.duration_ms.isSome → (enrich_metadata song mb lyr).duration_ms.isSome) ∧
    (song.lyrics.isSome → (enrich_metadata song mb lyr).lyrics.isSome) ∧
    (mb = .err → enrich_metadata song mb lyr = song) ∧
    (mb = .noData → lyr = none → enrich_metadata song mb lyr = song) := by
  cases mb with
  | err => simp [enrich_metadata]
  | noData =>
    cases lyr <;> simp [enrich_metadata]
  | ok d =>
    obtain ⟨rt, ra, ral, rc, g, tn, dm⟩ := d
    cases rt <;> cases ra <;> cases ral <;> cases rc <;> cases g <;> cases tn <;> cases dm <;>
      cases lyr <;>
      simp [enrich_metadata, applyRecordingData]

/-- Witness for C7 at a concrete input: a record with an album field
enriched with incomplete provider data (genre only) keeps its album, and an
exception returns it unchanged. -/
theorem C7_enrich_never_narrows_witness :
    ((enrich_metadata songA (.ok { genres := ["pop"] }) none).album).isSome = true ∧
    enrich_metadata songA .err (some "words") = songA := by
  constructor
  · exact (C7_enrich_never_narrows songA (.ok { genres := ["pop"] }) none).2.1 rfl
  · exact (C7_enrich_never_narrows songA .err (some "words")).2.2.2.2.2.2.2.1 rfl

/-! ## Lemmas about the job runner -/

theorem countOk_add_countBad (rs : List SongResult) : countOk rs + countBad rs = rs.length := by
  induction rs with
  | nil => rfl
  | cons r rest ih =>
    cases hr : r.isOk <;> simp [countOk, countBad, hr] <;> omega

theorem loopTrace_state (n : Nat) (ps : List (SongDict × SongResult)) :
    ∀ (i : Nat) (st : LoopState),
    (loopTrace n i st ps).2 =
      ⟨st.completed + countOk (ps.map Prod.snd),
       st.failed + countBad (ps.map Prod.snd),
       st.outcomes ++ ps.map (fun p => mkOutcome p.1 p.2)⟩ := by
  induction ps with
  | nil => intro i st; simp [loopTrace, countOk, countBad]
  | cons hd tl ih =>
    intro i st
    obtain ⟨s, r⟩ := hd
    cases r <;>
      simp [loopTrace, iterWrites, ih, countOk, countBad, SongResult.isOk,
        LoopState.mk.injEq] <;>
      omega

theorem runOutcomes_eq (songs : List SongDict) (results : List SongResult) :
    runOutcomes songs results = (songs.zip results).map (fun p => mkOutcome p.1 p.2) := by
  unfold runOutcomes
  rw [loopTrace_state]
  simp

theorem zip_getElem? {α β : Type} (us : List α) (vs : List β) :
    ∀ (k : Nat) (u : α) (v : β), us[k]? = some u → vs[k]? = some v →
    (us.zip vs)[k]? = some (u, v) := by
  induction us generalizing vs with
  | nil => intro k u v h; simp at h
  | cons u0 urest ih =>
    intro k u v h1 h2
    cases vs with
    | nil => simp at h2
    | cons v0 vrest =>
      cases k with
      | zero =>
        simp at h1 h2
        simp [List.zip_cons_cons, h1, h2]
      | succ k2 =>
        simp at h1 h2
        simpa [List.zip_cons_cons] using ih vrest k2 u v h1 h2

theorem zip_getElem?_parts {α β : Type} (us : List α) (vs : List β) :
    ∀ (k : Nat) (w : α × β), (us.zip vs)[k]? = some w →
    us[k]? = some w.1 ∧ vs[k]? = some w.2 := by
  induction us generalizing vs with
  | nil => intro k w h; simp at h
  | cons u0 urest ih =>
    intro k w h
    cases vs with
    | nil => simp at h
    | cons v0 vrest =>
      cases k with
      | zero =>
        simp only [List.zip_cons_cons, List.getElem?_cons_zero, Option.some.injEq] at h
        subst h
        exact ⟨by simp, by simp⟩
      | succ k2 =>
        simp only [List.zip_cons_cons, List.getElem?_cons_succ] at h
        simpa using ih vrest k2 w h

/-- CLAIM C8: an exception raised while processing one song is caught by
the runner: the song is recorded in the outcome list with the exception
text, every song of the job still receives exactly one outcome (the
iteration continues), and the outcomes keep the input order. -/
theorem C8_exception_containment (songs : List SongDict) (results : List SongResult)
    (hlen : songs.length = results.length) :
    (runOutcomes songs results).length = songs.length ∧
    (∀ (i : Nat) (s : SongDict) (m : String),
      songs[i]? = some s → results[i]? = some (.exc m) →
      (runOutcomes songs results)[i]? =
        some { title := s.title, artist := s.artist, album := s.album,
               error := some m, status := "error" }) := by
  constructor
  · rw [runOutcomes_eq]
    simp [List.length_zip, hlen]
  · intro i s m hs hr
    rw [runOutcomes_eq]
    rw [List.getElem?_map, zip_getElem? songs results i s (.exc m) hs hr]
    rfl

/-- Witness for C8: in a two-song job whose first song raises, the
outcome list still has two entries and entry 0 is the error record. -/
theorem C8_exception_containment_witness :
    (runOutcomes [songA, songB] [.exc "boom", .ok "p"]).length = 2 ∧
    (runOutcomes [songA, songB] [.exc "boom", .ok "p"])[0]? =
      some { title := songA.title, artist := songA.artist, album := songA.album,
             error := some "boom", status := "error" } := by
  have h := C8_exception_containment [songA, songB] [.exc "boom", .ok "p"] rfl
  exact ⟨h.1, h.2 0 songA "boom" rfl rfl⟩

theorem loopTrace_getLast (n : Nat) (ps : List (SongDict × SongResult)) :
    ∀ (i : Nat) (st : LoopState) (pL : SongDict × SongResult),
    ps.getLast? = some pL → pL.2.isExc = false →
    (loopTrace n i st ps).1.getLast? =
      some (loopEndSnap n (i + (ps.length - 1))
        (st.completed + countOk (ps.map Prod.snd))
        (st.failed + countBad (ps.map Prod.snd))
        (st.outcomes ++ ps.map (fun p => mkOutcome p.1 p.2))) := by
  induction ps with
  | nil => intro i st pL h _; simp at h
  | cons hd tl ih =>
    intro i st pL hlastp hexcL
    obtain ⟨s, r⟩ := hd
    by_cases htl : tl = []
    · subst htl
      rw [List.getLast?_singleton, Option.some.injEq] at hlastp
      subst hlastp
      cases r with
      | ok p =>
        simp only [loopTrace, iterWrites, List.append_nil]
        rw [List.getLast?_append_cons]
        simp [countOk, countBad, SongResult.isOk]
      | failure m =>
        simp only [loopTrace, iterWrites, List.append_nil]
        rw [List.getLast?_append_cons]
        simp [countOk, countBad, SongResult.isOk]
      | exc m =>
        simp [SongResult.isExc] at hexcL
    · have htlen : 1 ≤ tl.length := by
        cases tl with
        | nil => exact absurd rfl htl
        | cons a b => simp
      have hlast2 : tl.getLast? = some pL := by
        cases tl with
        | nil => exact absurd rfl htl
        | cons t0 tl2 => rw [← List.getLast?_cons_cons (a := (s, r))]; exact hlastp
      cases r with
      | ok p =>
        have hr := ih (i + 1) ⟨st.completed + 1, st.failed,
            st.outcomes ++ [mkOutcome s (.ok p)]⟩ pL hlast2 hexcL
        have hne : (loopTrace n (i + 1)
            ⟨st.completed + 1, st.failed, st.outcomes ++ [mkOutcome s (.ok p)]⟩ tl).1 ≠ [] := by
          intro h0
          rw [h0] at hr
          simp at hr
        simp only [loopTrace, iterWrites]
        rw [List.getLast?_append_of_ne_nil _ hne, hr]
        have h1 : i + 1 + (tl.length - 1) = i + ((s, SongResult.ok p) :: tl).length - 1 := by
          simp; omega
        have h2 : st.completed + 1 + countOk (tl.map Prod.snd) =
            st.completed + countOk (((s, SongResult.ok p) :: tl).map Prod.snd) := by
          simp [countOk, SongResult.isOk]; omega
        have h3 : st.failed + countBad (tl.map Prod.snd) =
            st.failed + countBad (((s, SongResult.ok p) :: tl).map Prod.snd) := by
          simp [countBad, SongResult.isOk]
        have h4 : (st.outcomes ++ [mkOutcome s (.ok p)]) ++ tl.map (fun p => mkOutcome p.1 p.2) =
            st.outcomes ++ (((s, SongResult.ok p) :: tl).map (fun p => mkOutcome p.1 p.2)) := by
          simp
        rw [h1, h2, h3, h4]
        simp
      | failure m =>
        have hr := ih (i + 1) ⟨st.completed, st.failed + 1,
            st.outcomes ++ [mkOutcome s (.failure m)]⟩ pL hlast2 hexcL
        have hne : (loopTrace n (i + 1)
            ⟨st.completed, st.failed + 1, st.outcomes ++ [mkOutcome s (.failure m)]⟩ tl).1 ≠ [] := by
          intro h0
          rw [h0] at hr
          simp at hr
        simp only [loopTrace, iterWrites]
        rw [List.getLast?_append_of_ne_nil _ hne, hr]
        have h1 : i + 1 + (tl.length - 1) = i + ((s, SongResult.failure m) :: tl).length - 1 := by
          simp; omega
        have h2 : st.completed + countOk (tl.map Prod.snd) =
            st.completed + countOk (((s, SongResult.failure m) :: tl).map Prod.snd) := by
          simp [countOk, SongResult.isOk]
        have h3 : st.failed + 1 + countBad (tl.map Prod.snd) =
            st.failed + countBad (((s, SongResult.failure m) :: tl).map Prod.snd) := by
          simp [countBad, SongResult.isOk]; omega
        have h4 : (st.outcomes ++ [mkOutcome s (.failure m)]) ++
              tl.map (fun p => mkOutcome p.1 p.2) =
            st.outcomes ++ (((s, SongResult.failure m) :: tl).map (fun p => mkOutcome p.1 p.2)) := by
          simp
        rw [h1, h2, h3, h4]
        simp
      | exc m =>
        have hr := ih (i + 1) ⟨st.completed, st.failed + 1,
            st.outcomes ++ [mkOutcome s (.exc m)]⟩ pL hlast2 hexcL
        have hne : (loopTrace n (i + 1)
            ⟨st.completed, st.failed + 1, st.outcomes ++ [mkOutcome s (.exc m)]⟩ tl).1 ≠ [] := by
          intro h0
          rw [h0] at hr
          simp at hr
        simp only [loopTrace, iterWrites]
        rw [List.getLast?_append_of_ne_nil _ hne, hr]
        have h1 : i + 1 + (tl.length - 1) = i + ((s, SongResult.exc m) :: tl).length - 1 := by
          simp; omega
        have h2 : st.completed + countOk (tl.map Prod.snd) =
            st.completed + countOk (((s, SongResult.exc m) :: tl).map Prod.snd) := by
          simp [countOk, SongResult.isOk]
        have h3 : st.failed + 1 + countBad (tl.map Prod.snd) =
            st.failed + countBad (((s, SongResult.exc m) :: tl).map Prod.snd) := by
          simp [countBad, SongResult.isOk]; omega
        have h4 : (st.outcomes ++ [mkOutcome s (.exc m)]) ++
              tl.map (fun p => mkOutcome p.1 p.2) =
            st.outcomes ++ (((s, SongResult.exc m) :: tl).map (fun p => mkOutcome p.1 p.2)) := by
          simp
        rw [h1, h2, h3, h4]
        simp

theorem successful_filter_ne_nil (ps : List (SongDict × SongResult))
    (h : 0 < countOk (ps.map Prod.snd)) :
    ((ps.map (fun p => mkOutcome p.1 p.2)).filter
      (fun o => o.status == "completed")).isEmpty = false := by
  induction ps with
  | nil => simp [countOk] at h
  | cons hd tl ih =>
    obtain ⟨s, r⟩ := hd
    cases r with
    | ok p => simp [mkOutcome, List.filter]
    | failure m =>
      simp only [countOk, List.map_cons, SongResult.isOk] at h
      simp only [List.map_cons, List.filter, mkOutcome]
      exact ih (by simpa using h)
    | exc m =>
      simp only [countOk, List.map_cons, SongResult.isOk] at h
      simp only [List.map_cons, List.filter, mkOutcome]
      exact ih (by simpa using h)

theorem status_pre (m : Nat) :
    ∀ snap ∈ singleSongPreWrites m, snap.status = "downloading" := by
  intro snap hmem
  unfold singleSongPreWrites at hmem
  by_cases hm : m = 1
  · rw [if_pos hm] at hmem
    simp only [List.mem_cons, List.not_mem_nil, or_false] at hmem
    rcases hmem with h | h <;> subst h <;> rfl
  · rw [if_neg hm] at hmem
    simp at hmem

theorem status_mid (m : Nat) :
    ∀ snap ∈ singleSongMidWrites m, snap.status = "downloading" := by
  intro snap hmem
  unfold singleSongMidWrites at hmem
  by_cases hm : m = 1
  · rw [if_pos hm] at hmem
    simp only [List.mem_singleton] at hmem
    subst hmem
    rfl
  · rw [if_neg hm] at hmem
    simp at hmem

theorem loopTrace_status_downloading (n : Nat) (ps : List (SongDict × SongResult)) :
    ∀ (i : Nat) (st : LoopState), st.completed + st.failed = i →
    (∀ (j : Nat) (pj : SongDict × SongResult), ps[j]? = some pj → pj.2.isExc = false →
      i + j + 1 < n) →
    ∀ snap ∈ (loopTrace n i st ps).1, snap.status = "downloading" := by
  induction ps with
  | nil => intro i st _ _ snap hmem; simp [loopTrace] at hmem
  | cons hd tl ih =>
    intro i st hinv hbnd snap hmem
    obtain ⟨s, r⟩ := hd
    simp only [loopTrace, List.mem_append] at hmem
    rcases hmem with hblk | hrest
    · cases r with
      | ok p =>
        simp only [iterWrites, List.mem_append] at hblk
        rcases hblk with (hb | hb) | hb
        · exact status_pre n snap hb
        · exact status_mid n snap hb
        · simp only [List.mem_singleton] at hb
          subst hb
          have hlt : i + 0 + 1 < n := hbnd 0 (s, .ok p) (by simp) rfl
          show (loopEndSnap n i (st.completed + 1) st.failed _).status = "downloading"
          rw [loopEndSnap]
          simp only []
          rw [if_pos (by omega)]
      | failure m =>
        simp only [iterWrites, List.mem_append] at hblk
        rcases hblk with hb | hb
        · exact status_pre n snap hb
        · simp only [List.mem_singleton] at hb
          subst hb
          have hlt : i + 0 + 1 < n := hbnd 0 (s, .failure m) (by simp) rfl
          show (loopEndSnap n i st.completed (st.failed + 1) _).status = "downloading"
          rw [loopEndSnap]
          simp only []
          rw [if_pos (by omega)]
      | exc m =>
        simp only [iterWrites] at hblk
        exact status_pre n snap hblk
    · have hbnd2 : ∀ (j : Nat) (pj : SongDict × SongResult), tl[j]? = some pj →
          pj.2.isExc = false → (i + 1) + j + 1 < n := by
        intro j pj hj hx
        have := hbnd (j + 1) pj (by simpa using hj) hx
        omega
      cases r with
      | ok p =>
        refine ih (i + 1)
          ⟨st.completed + 1, st.failed, st.outcomes ++ [mkOutcome s (.ok p)]⟩
          (by show st.completed + 1 + st.failed = i + 1; omega) hbnd2 snap ?_
        simpa [iterWrites] using hrest
      | failure m =>
        refine ih (i + 1)
          ⟨st.completed, st.failed + 1, st.outcomes ++ [mkOutcome s (.failure m)]⟩
          (by show st.completed + (st.failed + 1) = i + 1; omega) hbnd2 snap ?_
        simpa [iterWrites] using hrest
      | exc m =>
        refine ih (i + 1)
          ⟨st.completed, st.failed + 1, st.outcomes ++ [mkOutcome s (.exc m)]⟩
          (by show st.completed + (st.failed + 1) = i + 1; omega) hbnd2 snap ?_
        simpa [iterWrites] using hrest

theorem getLast?_status_downloading (l : List Snapshot) (hne : l ≠ [])
    (hall : ∀ x ∈ l, x.status = "downloading") :
    (l.getLast?).map Snapshot.status = some "downloading" := by
  rw [List.getLast?_eq_getLast_of_ne_nil hne]
  simp [hall _ (List.getLast_mem hne)]

/-- COUNTEREXAMPLE to C2 as stated, in two parts.  First divergence: a
two-song job whose first song failed and whose second succeeded ends with
failed = 1, the loop writes the terminal error status (index 2 of the
trace), but the playlist block then replaces the record with status
completed, so the final status is not error.  Second divergence: a
two-song job whose first song failed and whose second raised an
unexpected exception also has failed > 0, yet its final stored record is
the first-iteration update with the non-terminal status downloading,
because the exception skips the end-of-iteration write and no playlist
write happens — the claimed terminal error status is never stored. -/
theorem C2_counterexample :
    countBad [SongResult.failure "boom", SongResult.ok "q"] = 1 ∧
    (process_song_download "id" "out" [songA, songB]
        [.failure "boom", .ok "q"])[2]? =
      some (loopEndSnap 2 1 1 1
        [mkOutcome songA (.failure "boom"), mkOutcome songB (.ok "q")]) ∧
    (loopEndSnap 2 1 1 1
        [mkOutcome songA (.failure "boom"), mkOutcome songB (.ok "q")]).status = "error" ∧
    (process_song_download "id" "out" [songA, songB]
        [.failure "boom", .ok "q"]).getLast? =
      some { status := "completed", playlist_path := some "out/id.m3u",
             songs := some [mkOutcome songA (.failure "boom"), mkOutcome songB (.ok "q")] } ∧
    countBad [SongResult.failure "x", SongResult.exc "boom"] = 2 ∧
    (process_song_download "id" "out" [songA, songB]
        [.failure "x", .exc "boom"]).getLast? =
      some (loopEndSnap 2 0 0 1 [mkOutcome songA (.failure "x")]) ∧
    (loopEndSnap 2 0 0 1 [mkOutcome songA (.failure "x")]).status = "downloading" := by
  refine ⟨rfl, rfl, rfl, rfl, rfl, rfl, rfl⟩

/-- CLAIM C2 (amended): the final stored status of a job is characterized
in three cases with no blanket exception hypothesis.  A multi-song job
with at least one success always ends at status completed with the
playlist path attached — the playlist step overwrites even a terminal
error status (first deviation from the claim as stated).  Otherwise, if
the last song of the job did not raise an unexpected exception, the final
stored status is completed when failed = 0 and error when failed > 0, as
claimed.  But if the last song raised an unexpected exception (and no
playlist write happened), the end-of-iteration update is skipped inside
the per-song try block, so the job is left forever at the stale
non-terminal status downloading (second deviation from the claim as
stated). -/
theorem C2_final_status (dlId outDir : String) (songs : List SongDict)
    (results : List SongResult) (hlen : songs.length = results.length)
    (hpos : 0 < songs.length) :
    (1 < songs.length ∧ 0 < countOk results →
      ∃ snap : Snapshot,
        (process_song_download dlId outDir songs results).getLast? = some snap ∧
        snap.status = "completed" ∧
        snap.playlist_path = some (create_m3u_playlist outDir (dlId ++ ".m3u"))) ∧
    (¬(1 < songs.length ∧ 0 < countOk results) →
      ∀ r : SongResult, results.getLast? = some r → r.isExc = false →
      ((process_song_download dlId outDir songs results).getLast?).map Snapshot.status =
        some (if countBad results = 0 then "completed" else "error")) ∧
    (¬(1 < songs.length ∧ 0 < countOk results) →
      ∀ m : String, results.getLast? = some (.exc m) →
      ((process_song_download dlId outDir songs results).getLast?).map Snapshot.status =
        some "downloading") := by
  have hres : (songs.zip results).map Prod.snd = results :=
    List.map_snd_zip songs results (le_of_eq hlen.symm)
  have hstate := loopTrace_state songs.length (songs.zip results) 0 ⟨0, 0, []⟩
  have hziplen : (songs.zip results).length = songs.length := by
    rw [List.length_zip, ← hlen, Nat.min_self]
  refine ⟨?_, ?_, ?_⟩
  · -- playlist block runs and is the last write
    intro hA
    have hc : 0 < ((loopTrace songs.length 0 ⟨0, 0, []⟩ (songs.zip results)).2).completed := by
      rw [hstate]
      simpa [hres] using hA.2
    have hfilter : (((loopTrace songs.length 0 ⟨0, 0, []⟩
          (songs.zip results)).2).outcomes.filter
        (fun o => o.status == "completed")).isEmpty = false := by
      rw [hstate]
      simpa using successful_filter_ne_nil (songs.zip results) (by rw [hres]; exact hA.2)
    have hpl : playlistWrites songs.length
        ((loopTrace songs.length 0 ⟨0, 0, []⟩ (songs.zip results)).2) dlId outDir =
        [{ status := "completed",
           playlist_path := some (create_m3u_playlist outDir (dlId ++ ".m3u")),
           songs := some ((loopTrace songs.length 0
             ⟨0, 0, []⟩ (songs.zip results)).2).outcomes }] := by
      rw [playlistWrites, if_pos ⟨hA.1, hc⟩]
      simp [hfilter]
    have hlast : (process_song_download dlId outDir songs results).getLast? =
        some { status := "completed",
               playlist_path := some (create_m3u_playlist outDir (dlId ++ ".m3u")),
               songs := some ((loopTrace songs.length 0
                 ⟨0, 0, []⟩ (songs.zip results)).2).outcomes } := by
      simp only [process_song_download]
      rw [hpl, List.getLast?_append_cons]
      rfl
    exact ⟨_, hlast, rfl, rfl⟩
  · -- no playlist write, last song did not raise: terminal loop write is final
    intro hA r hr hexcF
    have hnc : ¬ (1 < songs.length ∧
        0 < ((loopTrace songs.length 0 ⟨0, 0, []⟩ (songs.zip results)).2).completed) := by
      intro hcontra
      apply hA
      refine ⟨hcontra.1, ?_⟩
      have h2 := hcontra.2
      rw [hstate] at h2
      simpa [hres] using h2
    have hpl : playlistWrites songs.length
        ((loopTrace songs.length 0 ⟨0, 0, []⟩ (songs.zip results)).2) dlId outDir = [] := by
      rw [playlistWrites, if_neg hnc]
    have hs_ne : songs ≠ [] := by
      intro h0
      rw [h0] at hpos
      simp at hpos
    have hsL2 : songs[songs.length - 1]? = some (songs.getLast hs_ne) := by
      rw [← List.getLast?_eq_getElem?]
      exact List.getLast?_eq_getLast_of_ne_nil hs_ne
    have hrl : results[songs.length - 1]? = some r := by
      rw [hlen, ← List.getLast?_eq_getElem?]
      exact hr
    have hzipLast : (songs.zip results).getLast? = some (songs.getLast hs_ne, r) := by
      rw [List.getLast?_eq_getElem?, hziplen]
      exact zip_getElem? songs results (songs.length - 1) (songs.getLast hs_ne) r hsL2 hrl
    have hloop := loopTrace_getLast songs.length (songs.zip results) 0 ⟨0, 0, []⟩
      (songs.getLast hs_ne, r) hzipLast hexcF
    have hsum : countOk results + countBad results = songs.length := by
      rw [countOk_add_countBad, hlen]
    have hloop_ne : (loopTrace songs.length 0 ⟨0, 0, []⟩ (songs.zip results)).1 ≠ [] := by
      intro h0
      rw [h0] at hloop
      simp at hloop
    have hlast : (process_song_download dlId outDir songs results).getLast? =
        some (loopEndSnap songs.length (0 + ((songs.zip results).length - 1))
          (0 + countOk ((songs.zip results).map Prod.snd))
          (0 + countBad ((songs.zip results).map Prod.snd))
          ([] ++ (songs.zip results).map (fun p => mkOutcome p.1 p.2))) := by
      simp only [process_song_download]
      rw [hpl, List.append_nil, ← List.singleton_append,
        List.getLast?_append_of_ne_nil _ hloop_ne]
      exact hloop
    have hstatus : (loopEndSnap songs.length (0 + ((songs.zip results).length - 1))
        (0 + countOk ((songs.zip results).map Prod.snd))
        (0 + countBad ((songs.zip results).map Prod.snd))
        ([] ++ (songs.zip results).map (fun p => mkOutcome p.1 p.2))).status =
        (if countBad results = 0 then "completed" else "error") := by
      rw [loopEndSnap]
      simp only [hres]
      have hnotlt : ¬ (0 + countOk results + (0 + countBad results) < songs.length) := by
        omega
      rw [if_neg hnotlt]
      by_cases hz : countBad results = 0
      · rw [if_pos hz, if_neg (by omega)]
      · rw [if_neg hz, if_pos (by omega)]
    rw [hlast]
    simp only [Option.map_some', Option.some.injEq]
    exact hstatus
  · -- no playlist write, last song raised: the terminal write was skipped
    intro hA m hr
    have hnc : ¬ (1 < songs.length ∧
        0 < ((loopTrace songs.length 0 ⟨0, 0, []⟩ (songs.zip results)).2).completed) := by
      intro hcontra
      apply hA
      refine ⟨hcontra.1, ?_⟩
      have h2 := hcontra.2
      rw [hstate] at h2
      simpa [hres] using h2
    have hpl : playlistWrites songs.length
        ((loopTrace songs.length 0 ⟨0, 0, []⟩ (songs.zip results)).2) dlId outDir = [] := by
      rw [playlistWrites, if_neg hnc]
    have hrl : results[songs.length - 1]? = some (.exc m) := by
      rw [hlen, ← List.getLast?_eq_getElem?]
      exact hr
    have hbnd : ∀ (j : Nat) (pj : SongDict × SongResult),
        (songs.zip results)[j]? = some pj → pj.2.isExc = false →
        0 + j + 1 < songs.length := by
      intro j pj hj hx
      have hparts := zip_getElem?_parts songs results j pj hj
      have hjlt : j < (songs.zip results).length := by
        by_contra hge
        rw [List.getElem?_eq_none (Nat.le_of_not_lt hge)] at hj
        exact Option.noConfusion hj
      rw [hziplen] at hjlt
      by_contra hge2
      have hj_eq : j = songs.length - 1 := by omega
      rw [hj_eq] at hparts
      have h2 := hparts.2
      rw [hrl] at h2
      have h3 : SongResult.exc m = pj.2 := by
        simpa using h2
      rw [← h3] at hx
      simp [SongResult.isExc] at hx
    have hall_loop := loopTrace_status_downloading songs.length (songs.zip results) 0
      ⟨0, 0, []⟩ rfl hbnd
    have hfull : ∀ x ∈ (initialWrite songs.length ::
        (loopTrace songs.length 0 ⟨0, 0, []⟩ (songs.zip results)).1),
        x.status = "downloading" := by
      intro x hx
      rcases List.mem_cons.mp hx with h | h
      · subst h
        rfl
      · exact hall_loop x h
    have hfin := getLast?_status_downloading _ (List.cons_ne_nil _ _) hfull
    simp only [process_song_download]
    rw [hpl, List.append_nil]
    exact hfin

/-- Witness for C2 (amended) at concrete inputs, one per case: a two-song
job with a failure and a success ends completed with the playlist path; a
two-song job with two failures ends at error; and a two-song job whose
second song raised an exception is left at status downloading. -/
theorem C2_final_status_witness :
    (∃ snap : Snapshot,
      (process_song_download "id" "out" [songA, songB]
          [.failure "boom", .ok "q"]).getLast? = some snap ∧
      snap.status = "completed" ∧
      snap.playlist_path = some (create_m3u_playlist "out" ("id" ++ ".m3u"))) ∧
    ((process_song_download "id" "out" [songA, songB]
        [.failure "f1", .failure "f2"]).getLast?).map Snapshot.status = some "error" ∧
    ((process_song_download "id" "out" [songA, songB]
        [.failure "x", .exc "boom"]).getLast?).map Snapshot.status = some "downloading" := by
  have h1 := C2_final_status "id" "out" [songA, songB] [.failure "boom", .ok "q"]
    rfl (by decide)
  have h2 := C2_final_status "id" "out" [songA, songB] [.failure "f1", .failure "f2"]
    rfl (by decide)
  have h3 := C2_final_status "id" "out" [songA, songB] [.failure "x", .exc "boom"]
    rfl (by decide)
  refine ⟨h1.1 (by decide), ?_, h3.2.2 (by decide) "boom" rfl⟩
  exact h2.2.1 (by decide) (.failure "f2") rfl rfl

theorem snapOk_pre (n m : Nat) : ∀ snap ∈ singleSongPreWrites m, SnapOk n snap := by
  intro snap hmem
  unfold singleSongPreWrites at hmem
  by_cases hm : m = 1
  · rw [if_pos hm] at hmem
    simp only [List.mem_cons, List.not_mem_nil, or_false] at hmem
    rcases hmem with h | h
    · subst h
      refine ⟨?_, ?_⟩
      · intro c f t hc hf ht
        simp at hc hf ht
        omega
      · intro hst _
        rcases hst with h | h <;> simp at h
    · subst h
      refine ⟨?_, ?_⟩
      · intro c f t hc hf ht
        simp at hc hf ht
        omega
      · intro hst _
        rcases hst with h | h <;> simp at h
  · rw [if_neg hm] at hmem
    simp at hmem

theorem snapOk_mid (n m : Nat) : ∀ snap ∈ singleSongMidWrites m, SnapOk n snap := by
  intro snap hmem
  unfold singleSongMidWrites at hmem
  by_cases hm : m = 1
  · rw [if_pos hm] at hmem
    simp only [List.mem_singleton] at hmem
    subst hmem
    constructor
    · intro c f t hc hf ht
      simp at hc hf ht
      omega
    · intro hst _
      rcases hst with h | h <;> simp at h
  · rw [if_neg hm] at hmem
    simp at hmem

theorem snapOk_endSnap (n i c f : Nat) (outs : List Outcome) (hcf : c + f = i + 1)
    (hle : i + 1 ≤ n) : SnapOk n (loopEndSnap n i c f outs) := by
  constructor
  · intro c2 f2 t2 hc hf ht
    simp only [loopEndSnap] at hc hf ht
    simp at hc hf ht
    omega
  · intro hst _
    by_cases hlt : c + f < n
    · exfalso
      simp only [loopEndSnap, if_pos hlt] at hst
      rcases hst with h | h <;> simp at h
    · exact ⟨c, f, rfl, rfl, by omega⟩

theorem snapOk_playlist (n2 : Nat) (st : LoopState) (dlId outDir : String) (n : Nat) :
    ∀ snap ∈ playlistWrites n2 st dlId outDir, SnapOk n snap := by
  intro snap hmem
  simp only [playlistWrites] at hmem
  split at hmem
  · split at hmem
    · simp at hmem
    · simp only [List.mem_singleton] at hmem
      subst hmem
      refine ⟨?_, ?_⟩
      · intro c f t hc hf ht
        simp at hc
      · intro _ hts
        simp at hts
  · simp at hmem

theorem loopTrace_snap_invariant (n : Nat) (ps : List (SongDict × SongResult)) :
    ∀ (i : Nat) (st : LoopState), st.completed + st.failed = i → i + ps.length ≤ n →
    ∀ snap ∈ (loopTrace n i st ps).1, SnapOk n snap := by
  induction ps with
  | nil => intro i st _ _ snap hmem; simp [loopTrace] at hmem
  | cons hd tl ih =>
    intro i st hinv hbound snap hmem
    obtain ⟨s, r⟩ := hd
    simp only [loopTrace, List.mem_append] at hmem
    rcases hmem with hblk | hrest
    · cases r with
      | ok p =>
        simp only [iterWrites, List.mem_append] at hblk
        rcases hblk with (hb | hb) | hb
        · exact snapOk_pre n n snap hb
        · exact snapOk_mid n n snap hb
        · simp only [List.mem_singleton] at hb
          subst hb
          exact snapOk_endSnap n i (st.completed + 1) st.failed _ (by omega) (by simp at hbound; omega)
      | failure m =>
        simp only [iterWrites, List.mem_append] at hblk
        rcases hblk with hb | hb
        · exact snapOk_pre n n snap hb
        · simp only [List.mem_singleton] at hb
          subst hb
          exact snapOk_endSnap n i st.completed (st.failed + 1) _ (by omega) (by simp at hbound; omega)
      | exc m =>
        simp only [iterWrites] at hblk
        exact snapOk_pre n n snap hblk
    · have hbound2 : (i + 1) + tl.length ≤ n := by
        simp only [List.length_cons] at hbound
        omega
      cases r with
      | ok p =>
        refine ih (i + 1)
          ⟨st.completed + 1, st.failed, st.outcomes ++ [mkOutcome s (.ok p)]⟩
          (by show st.completed + 1 + st.failed = i + 1; omega) hbound2 snap ?_
        simpa [iterWrites] using hrest
      | failure m =>
        refine ih (i + 1)
          ⟨st.completed, st.failed + 1, st.outcomes ++ [mkOutcome s (.failure m)]⟩
          (by show st.completed + (st.failed + 1) = i + 1; omega) hbound2 snap ?_
        simpa [iterWrites] using hrest
      | exc m =>
        refine ih (i + 1)
          ⟨st.completed, st.failed + 1, st.outcomes ++ [mkOutcome s (.exc m)]⟩
          (by show st.completed + (st.failed + 1) = i + 1; omega) hbound2 snap ?_
        simpa [iterWrites] using hrest

/-- COUNTEREXAMPLE to C3 as stated: a successfully completed two-song job
ends with the playlist write as its final observable snapshot; that
snapshot has status completed but carries no completed, failed or total
counters at all, so the claimed condition that a terminal snapshot shows
completed + failed = total (with all counters readable together with the
status) fails on it. -/
theorem C3_counterexample :
    (process_song_download "id" "out" [songA, songB] [.ok "p", .ok "q"]).getLast? =
      some { status := "completed", playlist_path := some "out/id.m3u",
             songs := some [mkOutcome songA (.ok "p"), mkOutcome songB (.ok "q")] } ∧
    ({ status := "completed", playlist_path := some "out/id.m3u",
       songs := some [mkOutcome songA (.ok "p"), mkOutcome songB (.ok "q")] } :
        Snapshot).completed_songs = none ∧
    ({ status := "completed", playlist_path := some "out/id.m3u",
       songs := some [mkOutcome songA (.ok "p"), mkOutcome songB (.ok "q")] } :
        Snapshot).failed_songs = none ∧
    ({ status := "completed", playlist_path := some "out/id.m3u",
       songs := some [mkOutcome songA (.ok "p"), mkOutcome songB (.ok "q")] } :
        Snapshot).total_songs = none :=
  ⟨rfl, rfl, rfl, rfl⟩

/-- CLAIM C3 (amended): every observable snapshot of a job satisfies
completed + failed ≤ total whenever all three counters are present, and
every snapshot whose status is completed or error and which still carries
a total field carries both counters summing to the job size; the final
playlist write of a successful multi-song job, however, drops the
counters entirely (see the counterexample), which is the deviation from
the claim as stated.  Every write is a full-record replace, so each
snapshot is internally consistent. -/
theorem C3_counters_invariant (isAlbum : Bool) (dlId outDir : String)
    (songs : List SongDict) (results : List SongResult) :
    ∀ snap ∈ jobTrace isAlbum dlId outDir songs results, SnapOk songs.length snap := by
  intro snap hmem
  unfold jobTrace at hmem
  rw [List.mem_append] at hmem
  rcases hmem with hpre | hproc
  · -- endpoint writes
    by_cases ha : isAlbum = true
    · rw [if_pos ha] at hpre
      simp only [albumEndpointPre, List.mem_cons, List.mem_singleton] at hpre
      rcases hpre with h | h | h
      · subst h
        exact ⟨by intro c f t hc hf ht; simp at hc, by intro hst _; rcases hst with h | h <;> simp at h⟩
      · subst h
        exact ⟨by intro c f t hc hf ht; simp at hf, by intro hst _; rcases hst with h | h <;> simp at h⟩
      · simp at h
    · rw [if_neg ha] at hpre
      simp only [singleEndpointPre, List.mem_singleton] at hpre
      subst hpre
      exact ⟨by intro c f t hc hf ht; simp at hf, by intro hst _; rcases hst with h | h <;> simp at h⟩
  · simp only [process_song_download, List.mem_cons, List.mem_append] at hproc
    rcases hproc with (h | h) | h
    · subst h
      constructor
      · intro c f t hc hf ht
        simp only [initialWrite] at hc hf ht
        simp at hc hf ht
        omega
      · intro hst _
        simp only [initialWrite] at hst
        rcases hst with h | h <;> simp at h
    · refine loopTrace_snap_invariant songs.length (songs.zip results) 0 ⟨0, 0, []⟩ rfl ?_ snap h
      rw [List.length_zip]
      omega
    · exact snapOk_playlist songs.length
        ((loopTrace songs.length 0 ⟨0, 0, []⟩ (songs.zip results)).2) dlId outDir
        songs.length snap h

/-- Witness for C3 (amended): applied to the initial downloading write of
a concrete two-song job, whose counters read zero against total two. -/
theorem C3_counters_invariant_witness :
    SnapOk 2 (initialWrite 2) ∧ (0 : Nat) + 0 ≤ 2 := by
  have hmem : initialWrite 2 ∈
      jobTrace false "id" "out" [songA, songB] [.ok "p", .failure "e"] := by
    simp [jobTrace, process_song_download, singleEndpointPre]
  have h := C3_counters_invariant false "id" "out" [songA, songB]
    [.ok "p", .failure "e"] (initialWrite 2) hmem
  exact ⟨h, h.1 0 0 2 rfl rfl rfl⟩

theorem filterMap_progress_playlist (n : Nat) (st : LoopState) (dlId outDir : String) :
    (playlistWrites n st dlId outDir).filterMap Snapshot.progress = [] := by
  simp only [playlistWrites]
  split
  · split
    · rfl
    · rfl
  · rfl

theorem filterMap_progress_iter (n i : Nat) (st : LoopState) (s : SongDict) (r : SongResult)
    (hn : n ≠ 1) :
    ((iterWrites n i st s r).1).filterMap Snapshot.progress =
      if r.isExc then [] else [(i + 1) * 100 / n] := by
  cases r <;>
    simp [iterWrites, singleSongPreWrites, singleSongMidWrites, loopEndSnap, hn,
      SongResult.isExc]

theorem chain_progress_loop (n : Nat) (hn : n ≠ 1) (ps : List (SongDict × SongResult)) :
    ∀ (i : Nat) (st : LoopState) (p : Nat), p ≤ (i + 1) * 100 / n →
    List.Chain' (· ≤ ·) (p :: (loopTrace n i st ps).1.filterMap Snapshot.progress) := by
  induction ps with
  | nil => intro i st p hp; simp [loopTrace]
  | cons hd tl ih =>
    intro i st p hp
    obtain ⟨s, r⟩ := hd
    have hmono : (i + 1) * 100 / n ≤ (i + 1 + 1) * 100 / n :=
      Nat.div_le_div_right (Nat.mul_le_mul_right 100 (by omega))
    simp only [loopTrace, List.filterMap_append,
      filterMap_progress_iter n i st s r hn]
    cases r with
    | exc m =>
      simp only [SongResult.isExc, if_true, List.nil_append]
      exact ih (i + 1) _ p (le_trans hp hmono)
    | ok q =>
      simp only [SongResult.isExc, Bool.false_eq_true, if_false, List.singleton_append]
      exact List.chain'_cons.mpr ⟨hp, ih (i + 1) _ ((i + 1) * 100 / n) hmono⟩
    | failure m =>
      simp only [SongResult.isExc, Bool.false_eq_true, if_false, List.singleton_append]
      exact List.chain'_cons.mpr ⟨hp, ih (i + 1) _ ((i + 1) * 100 / n) hmono⟩

theorem loopTrace_endSnap_mem (n : Nat) (ps : List (SongDict × SongResult)) :
    ∀ (i : Nat) (st : LoopState) (j : Nat) (s : SongDict) (r : SongResult),
    ps[j]? = some (s, r) → r.isExc = false →
    loopEndSnap n (i + j)
      (st.completed + countOk ((ps.take (j + 1)).map Prod.snd))
      (st.failed + countBad ((ps.take (j + 1)).map Prod.snd))
      (st.outcomes ++ (ps.take (j + 1)).map (fun p => mkOutcome p.1 p.2))
      ∈ (loopTrace n i st ps).1 := by
  induction ps with
  | nil => intro i st j s r h _; simp at h
  | cons hd tl ih =>
    intro i st j s r hget hexc
    cases j with
    | zero =>
      simp only [List.getElem?_cons_zero, Option.some.injEq] at hget
      subst hget
      cases r with
      | ok p =>
        simp only [loopTrace, iterWrites, List.mem_append]
        refine Or.inl (Or.inr ?_)
        simp [countOk, countBad, SongResult.isOk]
      | failure m =>
        simp only [loopTrace, iterWrites, List.mem_append]
        refine Or.inl (Or.inr ?_)
        simp [countOk, countBad, SongResult.isOk]
      | exc m => simp [SongResult.isExc] at hexc
    | succ j2 =>
      simp only [List.getElem?_cons_succ] at hget
      obtain ⟨s0, r0⟩ := hd
      cases r0 with
      | ok p0 =>
        have hmem := ih (i + 1)
          ⟨st.completed + 1, st.failed, st.outcomes ++ [mkOutcome s0 (.ok p0)]⟩
          j2 s r hget hexc
        have h1 : (i + 1) + j2 = i + (j2 + 1) := by omega
        have h2 : st.completed + 1 + countOk ((tl.take (j2 + 1)).map Prod.snd) =
            st.completed + countOk ((((s0, SongResult.ok p0) :: tl).take (j2 + 2)).map Prod.snd) := by
          simp [countOk, SongResult.isOk]
          omega
        have h3 : st.failed + countBad ((tl.take (j2 + 1)).map Prod.snd) =
            st.failed + countBad ((((s0, SongResult.ok p0) :: tl).take (j2 + 2)).map Prod.snd) := by
          simp [countBad, SongResult.isOk]
        have h4 : (st.outcomes ++ [mkOutcome s0 (.ok p0)]) ++
              (tl.take (j2 + 1)).map (fun p => mkOutcome p.1 p.2) =
            st.outcomes ++
              ((((s0, SongResult.ok p0) :: tl).take (j2 + 2)).map (fun p => mkOutcome p.1 p.2)) := by
          simp
        rw [h1, h2, h3, h4] at hmem
        simp only [loopTrace, iterWrites, List.mem_append]
        exact Or.inr hmem
      | failure m0 =>
        have hmem := ih (i + 1)
          ⟨st.completed, st.failed + 1, st.outcomes ++ [mkOutcome s0 (.failure m0)]⟩
          j2 s r hget hexc
        have h1 : (i + 1) + j2 = i + (j2 + 1) := by omega
        have h2 : st.completed + countOk ((tl.take (j2 + 1)).map Prod.snd) =
            st.completed +
              countOk ((((s0, SongResult.failure m0) :: tl).take (j2 + 2)).map Prod.snd) := by
          simp [countOk, SongResult.isOk]
        have h3 : st.failed + 1 + countBad ((tl.take (j2 + 1)).map Prod.snd) =
            st.failed +
              countBad ((((s0, SongResult.failure m0) :: tl).take (j2 + 2)).map Prod.snd) := by
          simp [countBad, SongResult.isOk]
          omega
        have h4 : (st.outcomes ++ [mkOutcome s0 (.failure m0)]) ++
              (tl.take (j2 + 1)).map (fun p => mkOutcome p.1 p.2) =
            st.outcomes ++
              ((((s0, SongResult.failure m0) :: tl).take (j2 + 2)).map
                (fun p => mkOutcome p.1 p.2)) := by
          simp
        rw [h1, h2, h3, h4] at hmem
        simp only [loopTrace, iterWrites, List.mem_append]
        exact Or.inr hmem
      | exc m0 =>
        have hmem := ih (i + 1)
          ⟨st.completed, st.failed + 1, st.outcomes ++ [mkOutcome s0 (.exc m0)]⟩
          j2 s r hget hexc
        have h1 : (i + 1) + j2 = i + (j2 + 1) := by omega
        have h2 : st.completed + countOk ((tl.take (j2 + 1)).map Prod.snd) =
            st.completed +
              countOk ((((s0, SongResult.exc m0) :: tl).take (j2 + 2)).map Prod.snd) := by
          simp [countOk, SongResult.isOk]
        have h3 : st.failed + 1 + countBad ((tl.take (j2 + 1)).map Prod.snd) =
            st.failed +
              countBad ((((s0, SongResult.exc m0) :: tl).take (j2 + 2)).map Prod.snd) := by
          simp [countBad, SongResult.isOk]
          omega
        have h4 : (st.outcomes ++ [mkOutcome s0 (.exc m0)]) ++
              (tl.take (j2 + 1)).map (fun p => mkOutcome p.1 p.2) =
            st.outcomes ++
              ((((s0, SongResult.exc m0) :: tl).take (j2 + 2)).map
                (fun p => mkOutcome p.1 p.2)) := by
          simp
        rw [h1, h2, h3, h4] at hmem
        simp only [loopTrace, iterWrites, List.mem_append]
        exact Or.inr hmem

/-- COUNTEREXAMPLE to C4 as stated: in a two-song job whose second song
raises an unexpected exception, the end-of-iteration update for that song
is skipped (it sits inside the per-song try block), so after processing
song index 1 of 2 the claimed progress value floor(2/2*100) = 100 is
never stored: the only progress values ever written for this job are 0
and 50, and the store is left reading the stale 50. -/
theorem C4_counterexample :
    ((process_song_download "id" "out" [songA, songB]
        [.ok "p", .exc "boom"]).filterMap Snapshot.progress) = [0, 50] ∧
    (1 + 1) * 100 / 2 = 100 :=
  ⟨rfl, rfl⟩

/-- CLAIM C4 (amended): across the writes of one job the progress values
are monotonically non-decreasing, and for every song whose processing did
not raise an unexpected exception the status update written at the end of
its iteration i of n carries progress floor((i+1)/n*100) (embedded as Nat
division, with which the Python float computation agrees for all job
sizes the service accepts); an exception iteration skips that update and
leaves the previously stored progress in place, which is the deviation
from the claim as stated (see the counterexample). -/
theorem C4_progress_monotone (dlId outDir : String) (songs : List SongDict)
    (results : List SongResult) (hlen : songs.length = results.length) :
    List.Chain' (· ≤ ·)
      ((process_song_download dlId outDir songs results).filterMap Snapshot.progress) ∧
    (∀ (i : Nat) (s : SongDict) (r : SongResult),
      (songs.zip results)[i]? = some (s, r) → r.isExc = false →
      (loopEndSnap songs.length i
        (countOk (((songs.zip results).take (i + 1)).map Prod.snd))
        (countBad (((songs.zip results).take (i + 1)).map Prod.snd))
        (((songs.zip results).take (i + 1)).map (fun p => mkOutcome p.1 p.2))
        ∈ process_song_download dlId outDir songs results) ∧
      (loopEndSnap songs.length i
        (countOk (((songs.zip results).take (i + 1)).map Prod.snd))
        (countBad (((songs.zip results).take (i + 1)).map Prod.snd))
        (((songs.zip results).take (i + 1)).map (fun p => mkOutcome p.1 p.2))).progress =
          some ((i + 1) * 100 / songs.length)) := by
  constructor
  · by_cases hn1 : songs.length = 1
    · obtain ⟨s0, hs0⟩ := List.length_eq_one.mp hn1
      have hr1 : results.length = 1 := by omega
      obtain ⟨r0, hr0⟩ := List.length_eq_one.mp hr1
      subst hs0; subst hr0
      cases r0 <;>
        simp [process_song_download, loopTrace, iterWrites, singleSongPreWrites,
          singleSongMidWrites, loopEndSnap, initialWrite, playlistWrites,
          List.filterMap]
    · simp only [process_song_download, List.filterMap_append,
        filterMap_progress_playlist, List.append_nil]
      rw [List.filterMap_cons]
      simp only [initialWrite]
      exact chain_progress_loop songs.length hn1 (songs.zip results) 0 ⟨0, 0, []⟩ 0
        (Nat.zero_le _)
  · intro i s r hget hexc
    constructor
    · have hmem := loopTrace_endSnap_mem songs.length (songs.zip results) 0 ⟨0, 0, []⟩
        i s r hget hexc
      simp only [Nat.zero_add, List.nil_append] at hmem
      simp only [process_song_download, List.mem_cons, List.mem_append]
      exact Or.inl (Or.inr hmem)
    · rfl

/-- Witness for C4 at a concrete two-song job: the progress chain holds
and the end-of-iteration-0 snapshot with progress 50 is in the trace. -/
theorem C4_progress_monotone_witness :
    List.Chain' (· ≤ ·)
      ((process_song_download "id" "out" [songA, songB]
        [.ok "p", .failure "e"]).filterMap Snapshot.progress) ∧
    (loopEndSnap 2 0
      (countOk ((([songA, songB].zip [SongResult.ok "p", SongResult.failure "e"]).take 1).map
        Prod.snd))
      (countBad ((([songA, songB].zip [SongResult.ok "p", SongResult.failure "e"]).take 1).map
        Prod.snd))
      ((([songA, songB].zip [SongResult.ok "p", SongResult.failure "e"]).take 1).map
        (fun p => mkOutcome p.1 p.2))
      ∈ process_song_download "id" "out" [songA, songB] [.ok "p", .failure "e"]) := by
  have h := C4_progress_monotone "id" "out" [songA, songB] [.ok "p", .failure "e"] rfl
  exact ⟨h.1, (h.2 0 songA (.ok "p") rfl rfl).1⟩

/-- CLAIM C1 evaluated at a failing input (code bug): process_song_download
never reads the status store — by construction its write trace is a pure
function of the song list and the per-song results, with no cancellation
input at all, exactly as in the source, whose loop body contains no
get_download_status call.  Concretely, for a two-song job: after the
first two writes the job is in status downloading, cancel_download_status
succeeds and stores the bare cancelled record, yet the runner still has
two writes pending (the second song acquisition and the playlist write),
and replaying them over the cancelled record leaves the job at status
completed with the second song acquired — the cancelled status is
overwritten and acquisition did not stop. -/
theorem C1_runner_ignores_cancellation :
    (cancel_download_status (applyWrites none
      ((process_song_download "id" "out" [songA, songB] [.ok "p", .ok "q"]).take 2))).1 =
        true ∧
    (cancel_download_status (applyWrites none
      ((process_song_download "id" "out" [songA, songB] [.ok "p", .ok "q"]).take 2))).2 =
        some { status := "cancelled" } ∧
    ((process_song_download "id" "out" [songA, songB] [.ok "p", .ok "q"]).drop 2).length = 2 ∧
    applyWrites (some { status := "cancelled" })
      ((process_song_download "id" "out" [songA, songB] [.ok "p", .ok "q"]).drop 2) =
      some { status := "completed", playlist_path := some "out/id.m3u",
             songs := some [mkOutcome songA (.ok "p"), mkOutcome songB (.ok "q")] } :=
  ⟨rfl, rfl, rfl, rfl⟩

end Tunes4r
